import Mathlib

/-!
Verification development for the file-sharing Lambda service
(src/lambdas/api_handler/main.py). Python run-time values are shallowly
embedded as the inductive type Val; raising an exception is modelled by
the Except monad with error type PyErr. External collaborators (S3,
DynamoDB, uuid, clock, presigner) are modelled by an oracle environment
Env and an explicit store state World.
-/

set_option maxRecDepth 4096

/-- Python exception classes that the embedded code can raise. -/
inductive PyErr where
  | attributeError
  | typeError
  | keyError
  | valueError
deriving DecidableEq, Repr

/-- A Python/JSON run-time value. Decimal is represented by its exact
rational value (DynamoDB decimals are a subset of the rationals).
A float is kept symbolic as the rational it was converted from: no claim
depends on IEEE-754 rounding, only on the type tag of the result.
Dicts are insertion-ordered association lists, as in Python. -/
inductive Val where
  | none
  | bool (b : Bool)
  | int (n : Int)
  | dec (q : Rat)
  | float (q : Rat)
  | str (s : String)
  | bytes (bs : List Nat)
  | list (xs : List Val)
  | dict (kvs : List (String × Val))
deriving Repr

/-- Lookup in an association-list dict (first binding wins, as in a
duplicate-free Python dict). -/
def dictLookup : List (String × Val) → String → Option Val
  | [], _ => Option.none
  | (k, v) :: kvs, key => if k = key then some v else dictLookup kvs key

/-- Python dict.get with an explicit default. -/
def dictGetD (kvs : List (String × Val)) (k : String) (d : Val) : Val :=
  (dictLookup kvs k).getD d

/-- Python truthiness (bool(v)) for the embedded values. -/
def pyTruthy : Val → Bool
  | .none => false
  | .bool b => b
  | .int n => n ≠ 0
  | .dec q => q ≠ 0
  | .float q => q ≠ 0
  | .str s => s ≠ ""
  | .bytes bs => !bs.isEmpty
  | .list xs => !xs.isEmpty
  | .dict kvs => !kvs.isEmpty

/-- Python v.get(k): returns the stored value (default None) on a dict,
raises AttributeError on anything else. -/
def pyGet (v : Val) (k : String) : Except PyErr Val :=
  match v with
  | .dict kvs => .ok (dictGetD kvs k Val.none)
  | _ => .error .attributeError

/-- Python v[k] for a string key: KeyError when missing, TypeError when
v is not a dict (no other embedded value supports string indexing). -/
def pyIndex (v : Val) (k : String) : Except PyErr Val :=
  match v with
  | .dict kvs =>
    match dictLookup kvs k with
    | some x => .ok x
    | Option.none => .error .keyError
  | _ => .error .typeError

/-- Python len(v): defined on strings (code points), bytes, lists and
dicts; TypeError on every other embedded value. -/
def pyLen (v : Val) : Except PyErr Nat :=
  match v with
  | .str s => .ok s.length
  | .bytes bs => .ok bs.length
  | .list xs => .ok xs.length
  | .dict kvs => .ok kvs.length
  | _ => .error .typeError

/-- Python v == s for a string literal s: true exactly when v is that
string (no non-str embedded value compares equal to a str). -/
def pyEqStr (v : Val) (s : String) : Bool :=
  match v with
  | .str t => t = s
  | _ => false

/-- Python s.startswith(pre), computed on the character lists. -/
def strStartsWith (s pre : String) : Bool :=
  pre.toList.isPrefixOf s.toList

/-- Drop the first n characters of a string; models the remainder
path.split("/files/", 1)[1] when the path starts with the 7-character
separator "/files/". -/
def strDropChars (s : String) (n : Nat) : String :=
  String.mk (s.toList.drop n)

/-- True when the value is a dict (isinstance(v, dict)). -/
def isDictV : Val → Bool
  | .dict _ => true
  | _ => false

/-- UTF-8 encoding of one code point as its byte sequence. -/
def utf8Bytes (c : Char) : List Nat :=
  let n := c.toNat
  if n < 0x80 then [n]
  else if n < 0x800 then
    [0xC0 ||| (n >>> 6), 0x80 ||| (n &&& 0x3F)]
  else if n < 0x10000 then
    [0xE0 ||| (n >>> 12), 0x80 ||| ((n >>> 6) &&& 0x3F), 0x80 ||| (n &&& 0x3F)]
  else
    [0xF0 ||| (n >>> 18), 0x80 ||| ((n >>> 12) &&& 0x3F),
      0x80 ||| ((n >>> 6) &&& 0x3F), 0x80 ||| (n &&& 0x3F)]

/-- UTF-8 encoding of a string as a byte list (str.encode()). -/
def strBytes (s : String) : List Nat :=
  s.toList.foldr (fun c acc => utf8Bytes c ++ acc) []

mutual

/-- Embedding of _convert_decimals (main.py): recursively convert
Decimal values into int (zero fractional part) or float (otherwise),
mapping over lists and dict values and leaving everything else alone. -/
def convert_decimals : Val → Val
  | .list xs => .list (convertList xs)
  | .dict kvs => .dict (convertDict kvs)
  | .dec q => if q.den = 1 then .int q.num else .float q
  | .none => .none
  | .bool b => .bool b
  | .int n => .int n
  | .float q => .float q
  | .str s => .str s
  | .bytes bs => .bytes bs

/-- Elementwise _convert_decimals over a Python list. -/
def convertList : List Val → List Val
  | [] => []
  | x :: xs => convert_decimals x :: convertList xs

/-- Valuewise _convert_decimals over a Python dict. -/
def convertDict : List (String × Val) → List (String × Val)
  | [] => []
  | (k, v) :: kvs => (k, convert_decimals v) :: convertDict kvs

end

mutual

/-- No Decimal-typed value occurs anywhere inside v. -/
def noDecimal : Val → Bool
  | .dec _ => false
  | .list xs => noDecimalList xs
  | .dict kvs => noDecimalDict kvs
  | _ => true

/-- noDecimal holds of every element. -/
def noDecimalList : List Val → Bool
  | [] => true
  | x :: xs => noDecimal x && noDecimalList xs

/-- noDecimal holds of every dict value. -/
def noDecimalDict : List (String × Val) → Bool
  | [] => true
  | kv :: kvs => noDecimal kv.2 && noDecimalDict kvs

end

/-- Hex digit value of a character, if any. -/
def hexDigit (c : Char) : Option Nat :=
  if '0' ≤ c ∧ c ≤ '9' then some (c.toNat - '0'.toNat)
  else if 'a' ≤ c ∧ c ≤ 'f' then some (c.toNat - 'a'.toNat + 10)
  else if 'A' ≤ c ∧ c ≤ 'F' then some (c.toNat - 'A'.toNat + 10)
  else Option.none

/-- Character-level percent decoding: a valid %XX escape becomes the
character with that code, anything else passes through unchanged. -/
def unquoteChars : List Char → List Char
  | '%' :: a :: b :: rest =>
    match hexDigit a, hexDigit b with
    | some x, some y => Char.ofNat (16 * x + y) :: unquoteChars rest
    | _, _ => '%' :: unquoteChars (a :: b :: rest)
  | c :: rest => c :: unquoteChars rest
  | [] => []

/-- Model of urllib.parse.unquote, restricted to single-byte (ASCII)
percent escapes; multibyte UTF-8 escape sequences are not modelled and
no claim exercises them. On escape-free strings it is the identity. -/
def unquote (s : String) : String :=
  String.mk (unquoteChars s.toList)

/-- True for the JSON whitespace characters. -/
def isJsonWs (c : Char) : Bool :=
  c = ' ' || c = '\t' || c = '\n' || c = '\r'

/-- Drop leading JSON whitespace. -/
def skipWs : List Char → List Char
  | c :: cs => if isJsonWs c then skipWs cs else c :: cs
  | [] => []

/-- Parse a run of decimal digits, returning the value and its length. -/
def parseDigits : List Char → Nat → Nat → (Nat × Nat × List Char)
  | c :: cs, acc, cnt =>
    if '0' ≤ c ∧ c ≤ '9' then parseDigits cs (10 * acc + (c.toNat - '0'.toNat)) (cnt + 1)
    else (acc, cnt, c :: cs)
  | [], acc, cnt => (acc, cnt, [])

/-- Parse the body of a JSON string literal after the opening quote,
handling the single-character escapes; unicode escapes are not modelled
(no claim exercises them). -/
def parseStringLit : List Char → Option (String × List Char)
  | [] => Option.none
  | c :: cs =>
    if c = '"' then some ("", cs)
    else if c = '\\' then
      match cs with
      | e :: cs2 =>
        let esc : Option Char :=
          if e = '"' then some '"'
          else if e = '\\' then some '\\'
          else if e = '/' then some '/'
          else if e = 'n' then some '\n'
          else if e = 't' then some '\t'
          else if e = 'r' then some '\r'
          else Option.none
        match esc with
        | some ch =>
          match parseStringLit cs2 with
          | some (s, rest) => some (String.mk (ch :: s.toList), rest)
          | Option.none => Option.none
        | Option.none => Option.none
      | [] => Option.none
    else
      match parseStringLit cs with
      | some (s, rest) => some (String.mk (c :: s.toList), rest)
      | Option.none => Option.none

/-- Insert a binding at the front unless the key reappears later; used
to give parsed objects Python dict duplicate-key semantics. -/
def dictInsert (kv : String × Val) (kvs : List (String × Val)) : List (String × Val) :=
  if (dictLookup kvs kv.1).isSome then kvs else kv :: kvs

mutual

/-- Recursive-descent JSON value parser (fuel-indexed; the top-level
call supplies fuel larger than the input length, and every recursive
call strictly consumes input, so fuel never runs out on real inputs). -/
def parseVal (fuel : Nat) (cs : List Char) : Option (Val × List Char) :=
  match fuel with
  | 0 => Option.none
  | fuel + 1 =>
    match skipWs cs with
    | [] => Option.none
    | c :: cs1 =>
      if c = 'n' then
        match cs1 with
        | 'u' :: 'l' :: 'l' :: rest => some (Val.none, rest)
        | _ => Option.none
      else if c = 't' then
        match cs1 with
        | 'r' :: 'u' :: 'e' :: rest => some (Val.bool true, rest)
        | _ => Option.none
      else if c = 'f' then
        match cs1 with
        | 'a' :: 'l' :: 's' :: 'e' :: rest => some (Val.bool false, rest)
        | _ => Option.none
      else if c = '"' then
        match parseStringLit cs1 with
        | some (s, rest) => some (Val.str s, rest)
        | Option.none => Option.none
      else if c = '[' then
        match skipWs cs1 with
        | ']' :: rest => some (Val.list [], rest)
        | cs2 => match parseElems fuel cs2 with
          | some (xs, rest) => some (Val.list xs, rest)
          | Option.none => Option.none
      else if c = '\x7b' then
        match skipWs cs1 with
        | '\x7d' :: rest => some (Val.dict [], rest)
        | cs2 => match parseMembers fuel cs2 with
          | some (kvs, rest) => some (Val.dict kvs, rest)
          | Option.none => Option.none
      else if c = '-' ∨ ('0' ≤ c ∧ c ≤ '9') then
        let (sign, csn) : Int × List Char :=
          if c = '-' then (-1, cs1) else (1, c :: cs1)
        match parseDigits csn 0 0 with
        | (_, 0, _) => Option.none
        | (n, _ + 1, rest) =>
          match rest with
          | '.' :: rest2 =>
            match parseDigits rest2 0 0 with
            | (_, 0, _) => Option.none
            | (frac, k + 1, rest3) =>
              some (Val.float (sign * ((n : Rat) + (frac : Rat) / ((10 : Rat) ^ (k + 1)))), rest3)
          | _ => some (Val.int (sign * n), rest)
      else Option.none

/-- Parse one or more comma-separated array elements. -/
def parseElems (fuel : Nat) (cs : List Char) : Option (List Val × List Char) :=
  match fuel with
  | 0 => Option.none
  | fuel + 1 =>
    match parseVal fuel cs with
    | Option.none => Option.none
    | some (v, rest) =>
      match skipWs rest with
      | ',' :: rest2 =>
        match parseElems fuel rest2 with
        | some (xs, rest3) => some (v :: xs, rest3)
        | Option.none => Option.none
      | ']' :: rest2 => some ([v], rest2)
      | _ => Option.none

/-- Parse one or more comma-separated object members, with Python dict
insertion semantics (a duplicate key overwrites the earlier value). -/
def parseMembers (fuel : Nat) (cs : List Char) : Option (List (String × Val) × List Char) :=
  match fuel with
  | 0 => Option.none
  | fuel + 1 =>
    match skipWs cs with
    | '"' :: cs1 =>
      match parseStringLit cs1 with
      | Option.none => Option.none
      | some (k, rest) =>
        match skipWs rest with
        | ':' :: rest2 =>
          match parseVal fuel rest2 with
          | Option.none => Option.none
          | some (v, rest3) =>
            match skipWs rest3 with
            | ',' :: rest4 =>
              match parseMembers fuel rest4 with
              | some (kvs, rest5) => some (dictInsert ((k, v)) kvs, rest5)
              | Option.none => Option.none
            | '\x7d' :: rest4 => some ([(k, v)], rest4)
            | _ => Option.none
        | _ => Option.none
    | _ => Option.none

end

/-- Model of json.loads for the Python values a transport body can
hold: parses string bodies (JSON without unicode escapes or exponent
floats, which no claim exercises) and raises TypeError on non-string
bodies. A parse is accepted only when the remaining input is
whitespace. -/
def jsonLoads (b : Val) : Except PyErr Val :=
  match b with
  | .str s =>
    match parseVal (s.length + 1) s.toList with
    | some (v, rest) =>
      if (skipWs rest).isEmpty then .ok v else .error .valueError
    | Option.none => .error .valueError
  | _ => .error .typeError

/-- Embedding of _json_body (main.py): parse the event body as JSON;
any exception (missing attribute, non-string body, malformed JSON) is
swallowed and yields an empty dict, and a None body short-circuits to
an empty dict, so the function is total: it never raises. The decoded
value is returned as-is, whatever its type. -/
def json_body (event : Val) : Val :=
  match event with
  | .dict ekvs =>
    match dictGetD ekvs "body" Val.none with
    | .none => .dict []
    | b =>
      match jsonLoads b with
      | .ok v => v
      | .error _ => .dict []
  | _ => .dict []

/-- Embedding of _parse_request (main.py). Exceptions are modelled by
Except: a truthy non-dict requestContext makes the rc.get call raise
AttributeError, and a non-dict event makes event.get raise. -/
def parse_request (event : Val) : Except PyErr (Val × Val) :=
  match event with
  | .dict ekvs =>
    let rc0 := dictGetD ekvs "requestContext" Val.none
    let rc := if pyTruthy rc0 then rc0 else Val.dict []
    match rc with
    | .dict rkvs =>
      match dictGetD rkvs "http" Val.none with
      | .dict hkvs =>
        if (dictLookup hkvs "method").isSome then
          .ok (dictGetD hkvs "method" (Val.str ""), dictGetD ekvs "rawPath" (Val.str ""))
        else
          .ok (dictGetD ekvs "httpMethod" (Val.str ""), dictGetD ekvs "path" (Val.str ""))
      | _ =>
        .ok (dictGetD ekvs "httpMethod" (Val.str ""), dictGetD ekvs "path" (Val.str ""))
    | _ => .error .attributeError
  | _ => .error .attributeError

/-- Python str(v) as used by f-strings. Exact for strings, the only
case the handlers reach (file_name passes a truthiness check before
being interpolated); scalar renderings follow Python and composite
renderings are abbreviated placeholders no claim depends on. -/
def pyStr : Val → String
  | .str s => s
  | .int n => toString n
  | .bool b => if b then "True" else "False"
  | .none => "None"
  | .dec q => toString q
  | .float q => toString q
  | .bytes _ => "bytes"
  | .list _ => "list"
  | .dict _ => "dict"

/-- One stored S3 object: body bytes/value, content type, and the
user-metadata tags passed to put_object. -/
structure S3Obj where
  body : Val
  contentType : Val
  meta : List (String × Val)

/-- Oracle environment for the external collaborators: the uuid and
clock values the service reads, and for each remote call either
successful completion (none) or the str(e) detail of the exception it
raises (some detail). presignUrl gives the URL returned by
generate_presigned_url for a key and an ExpiresIn value. -/
structure Env where
  uuid : String
  now : String
  s3PutError : Option String
  ddbPutError : Option String
  ddbGetError : Option String
  ddbScanError : Option String
  presignError : Option String
  presignUrl : String → Nat → String

/-- State of the two external stores: S3 objects keyed by object key,
and the DynamoDB table as its list of items (scan order = list order).
The DynamoDB primary key is the file_id attribute of each item. -/
structure World where
  s3 : List (String × S3Obj)
  table : List Val

/-- Write an S3 object, overwriting any object at the same key. -/
def putObj (objs : List (String × S3Obj)) (key : String) (o : S3Obj) :
    List (String × S3Obj) :=
  match objs with
  | [] => [(key, o)]
  | (k, v) :: rest => if k = key then (key, o) :: rest else (k, v) :: putObj rest key o

/-- Read an S3 object by key. -/
def s3Lookup : List (String × S3Obj) → String → Option S3Obj
  | [], _ => Option.none
  | (k, v) :: rest, key => if k = key then some v else s3Lookup rest key

/-- The primary-key attribute of a DynamoDB item, when it is a dict
with a string file_id. -/
def itemKey (it : Val) : Option String :=
  match it with
  | .dict kvs =>
    match dictLookup kvs "file_id" with
    | some (.str s) => some s
    | _ => Option.none
  | _ => Option.none

/-- DynamoDB put_item: replace the item with the same primary key, or
append a new item. -/
def putItem (items : List Val) (it : Val) : List Val :=
  match items with
  | [] => [it]
  | x :: rest =>
    if itemKey x = itemKey it then it :: rest else x :: putItem rest it

/-- DynamoDB get_item by primary key. -/
def lookupItem (items : List Val) (id : String) : Option Val :=
  items.find? (fun it => itemKey it = some id)

/-- An HTTP-style response envelope as built by _resp (main.py): the
body is kept as the pre-serialization value (json.dumps is not
modelled; no claim depends on the serialized text). The optional extra
headers of _resp are omitted: every call site in the source passes
none. -/
structure Resp where
  statusCode : Nat
  headers : List (String × String)
  body : Val

/-- Embedding of _resp (main.py). -/
def _resp (status : Nat) (body : Val) : Resp :=
  ⟨status, [("content-type", "application/json")], body⟩

/-- An error body as built throughout main.py. -/
def errBody (msg : String) : Val :=
  Val.dict [("error", Val.str msg)]

/-- The 20 MiB upload size cap (MAX_BYTES in main.py). -/
def MAX_BYTES : Nat := 20 * 1024 * 1024

/-- The content coercion of handle_upload: a str is UTF-8 encoded,
anything else is passed through unchanged. -/
def toData (fc : Val) : Val :=
  match fc with
  | .str s => .bytes (strBytes s)
  | v => v

/-- True exactly for the value None. -/
def isNoneV : Val → Bool
  | .none => true
  | _ => false

/-- Embedding of handle_upload (main.py) after the body has been
parsed: validation, size check, S3 write, DynamoDB write. Uncaught
exceptions (e.g. body.get on a non-dict body, len() on a non-sized
content value) surface as Except.error; handled remote failures become
500 responses. The returned World reflects exactly the writes
performed. -/
def handle_upload_body (env : Env) (body : Val) (w : World) :
    Except PyErr (Resp × World) :=
  match pyGet body "file_name" with
  | .error e => .error e
  | .ok file_name =>
  match pyGet body "file_content" with
  | .error e => .error e
  | .ok file_content =>
  match pyGet body "content_type" with
  | .error e => .error e
  | .ok ct0 =>
  let content_type := if pyTruthy ct0 then ct0 else Val.str "text/plain"
  if !pyTruthy file_name || isNoneV file_content then
    .ok (_resp 400 (errBody "Provide file_name and file_content"), w)
  else
  let data := toData file_content
  match pyLen data with
  | .error e => .error e
  | .ok size_bytes =>
  if size_bytes > MAX_BYTES then
    .ok (_resp 413 (errBody "File too large (>20MB)"), w)
  else
  let file_id := env.uuid
  let key := file_id ++ "_" ++ pyStr file_name
  match env.s3PutError with
  | some e => .ok (_resp 500 (errBody ("S3 upload failed: " ++ e)), w)
  | Option.none =>
  let obj : S3Obj :=
    ⟨data, content_type, [("file-id", Val.str file_id), ("original-name", file_name)]⟩
  let w1 : World := { w with s3 := putObj w.s3 key obj }
  match env.ddbPutError with
  | some e => .ok (_resp 500 (errBody ("DynamoDB write failed: " ++ e)), w1)
  | Option.none =>
  let item := Val.dict [("file_id", Val.str file_id), ("file_name", file_name),
    ("size", Val.int size_bytes), ("upload_timestamp", Val.str env.now),
    ("content_type", content_type)]
  .ok (_resp 200 (Val.dict [("file_id", Val.str file_id), ("file_name", file_name)]),
    { w1 with table := putItem w1.table item })

/-- Embedding of handle_upload (main.py): parse the body, then run the
upload pipeline. -/
def handle_upload (env : Env) (event : Val) (w : World) :
    Except PyErr (Resp × World) :=
  handle_upload_body env (json_body event) w

/-- The sort key of one scanned item, as computed by the lambda passed
to items.sort: x.get("upload_timestamp", "") — AttributeError on a
non-dict item; string keys are required for the comparison (mixed-type
comparison raises TypeError in Python; the model raises TypeError for
any non-string key, and no uniformly-non-string-keyed table is
reachable or claimed). -/
def keyOf (v : Val) : Except PyErr String :=
  match v with
  | .dict kvs =>
    match dictLookup kvs "upload_timestamp" with
    | Option.none => .ok ""
    | some (.str s) => .ok s
    | some _ => .error .typeError
  | _ => .error .attributeError

/-- Pair every item with its sort key, in list order, propagating the
first exception. -/
def keyedOf : List Val → Except PyErr (List (String × Val))
  | [] => .ok []
  | v :: vs =>
    match keyOf v, keyedOf vs with
    | .ok k, .ok rest => .ok ((k, v) :: rest)
    | .error e, _ => .error e
    | _, .error e => .error e

/-- Insert into a descending-sorted keyed list, before the first entry
whose key is not larger (stable for the original order). -/
def insertDesc (p : String × Val) : List (String × Val) → List (String × Val)
  | [] => [p]
  | q :: tl => if q.1 ≤ p.1 then p :: q :: tl else q :: insertDesc p tl

/-- Stable descending insertion sort on keyed items; models
list.sort(key=..., reverse=True). -/
def sortDescBy : List (String × Val) → List (String × Val)
  | [] => []
  | p :: tl => insertDesc p (sortDescBy tl)

/-- Model of items.sort(key=lambda x: x.get("upload_timestamp", ""),
reverse=True): compute the keys, then sort descending and stably. -/
def pySortDesc (items : List Val) : Except PyErr (List Val) :=
  match keyedOf items with
  | .error e => .error e
  | .ok keyed => .ok ((sortDescBy keyed).map (fun p => p.2))

/-- Render the str(e) of an exception caught by a generic handler. -/
def pyErrMsg : PyErr → String
  | .attributeError => "AttributeError"
  | .typeError => "TypeError"
  | .keyError => "KeyError"
  | .valueError => "ValueError"

/-- Embedding of handle_list (main.py): scan, convert decimals, sort
descending by upload_timestamp, return 200; the surrounding try/except
turns every failure (scan or sort) into a 500 with the DynamoDB scan
failed message, so the handler itself never raises. -/
def handle_list (env : Env) (w : World) : Resp :=
  match env.ddbScanError with
  | some e => _resp 500 (errBody ("DynamoDB scan failed: " ++ e))
  | Option.none =>
    match pySortDesc (convertList w.table) with
    | .ok sorted => _resp 200 (Val.list sorted)
    | .error e => _resp 500 (errBody ("DynamoDB scan failed: " ++ pyErrMsg e))

/-- Embedding of handle_download (main.py). The item lookup and the
decimal conversion sit inside the first try; item["file_name"] sits
outside both try blocks, so a record without a file_name attribute
raises out of the handler. -/
def handle_download (env : Env) (file_id : String) (w : World) :
    Except PyErr Resp :=
  match env.ddbGetError with
  | some e => .ok (_resp 500 (errBody ("DynamoDB read failed: " ++ e)))
  | Option.none =>
  match lookupItem w.table file_id with
  | Option.none => .ok (_resp 404 (errBody "File not found"))
  | some item0 =>
    if !pyTruthy item0 then .ok (_resp 404 (errBody "File not found"))
    else
    let item := convert_decimals item0
    match pyIndex item "file_name" with
    | .error e => .error e
    | .ok file_name =>
      let key := file_id ++ "_" ++ pyStr file_name
      match env.presignError with
      | some e => .ok (_resp 500 (errBody ("Could not generate download URL: " ++ e)))
      | Option.none =>
        .ok (_resp 200 (Val.dict [("file_id", Val.str file_id),
          ("file_name", file_name),
          ("download_url", Val.str (env.presignUrl key 3600))]))

/-- Embedding of lambda_handler (main.py): route on (method, path).
The logging call is a pure side effect and is not modelled. Python
evaluates path.startswith only after method == "GET" succeeds, and
startswith on a non-string path raises AttributeError. -/
def lambda_handler (env : Env) (event : Val) (w : World) :
    Except PyErr (Resp × World) :=
  match parse_request event with
  | .error e => .error e
  | .ok (method, path) =>
    if pyEqStr method "GET" && (pyEqStr path "/" || pyEqStr path "/health") then
      .ok (_resp 200 (Val.dict [("status", Val.str "ok")]), w)
    else if pyEqStr method "POST" && pyEqStr path "/upload" then
      handle_upload env event w
    else if pyEqStr method "GET" && pyEqStr path "/files" then
      .ok (handle_list env w, w)
    else if pyEqStr method "GET" then
      match path with
      | .str p =>
        if strStartsWith p "/files/" then
          match handle_download env (unquote (strDropChars p ("/files/".length))) w with
          | .ok r => .ok (r, w)
          | .error e => .error e
        else .ok (_resp 404 (errBody "Not Found"), w)
      | _ => .error .attributeError
    else .ok (_resp 404 (errBody "Not Found"), w)

/-- The field k of an event record is either absent or holds a string. -/
def strOrMissing (kvs : List (String × Val)) (k : String) : Prop :=
  dictLookup kvs k = Option.none ∨ ∃ s, dictLookup kvs k = some (Val.str s)

/-- Definition following the words of the spec (section 4.1) rather
than the code, for comparison with parse_request: if the event carries
a nested HTTP-descriptor object with a method field, the result is the
descriptor method and the raw path; otherwise the direct method and
path fields; every missing field resolves to the empty string. -/
def specParseRequest (ekvs : List (String × Val)) : Val × Val :=
  match dictGetD ekvs "requestContext" Val.none with
  | .dict rkvs =>
    match dictLookup rkvs "http" with
    | some (.dict hkvs) =>
      if (dictLookup hkvs "method").isSome then
        (dictGetD hkvs "method" (Val.str ""), dictGetD ekvs "rawPath" (Val.str ""))
      else
        (dictGetD ekvs "httpMethod" (Val.str ""), dictGetD ekvs "path" (Val.str ""))
    | _ => (dictGetD ekvs "httpMethod" (Val.str ""), dictGetD ekvs "path" (Val.str ""))
  | _ => (dictGetD ekvs "httpMethod" (Val.str ""), dictGetD ekvs "path" (Val.str ""))

/-- The sort key the list handler uses for a converted record: its
upload_timestamp string, or the empty string when the field is absent. -/
def tsKey (v : Val) : String :=
  match v with
  | .dict kvs =>
    match dictLookup kvs "upload_timestamp" with
    | some (.str s) => s
    | _ => ""
  | _ => ""

/-- A v1-schema POST /upload event whose JSON body carries a numeric
file_content. -/
def uploadNumberEvent : Val :=
  Val.dict [("httpMethod", Val.str "POST"), ("path", Val.str "/upload"),
    ("body", Val.str "\x7b\"file_name\": \"a\", \"file_content\": 5\x7d")]

/-- A v1-schema GET event for the path /files/ (trailing slash). -/
def filesSlashEvent : Val :=
  Val.dict [("httpMethod", Val.str "GET"), ("path", Val.str "/files/")]

/-- A v1-schema GET event for the path /files. -/
def filesEvent : Val :=
  Val.dict [("httpMethod", Val.str "GET"), ("path", Val.str "/files")]

/-- A fault-free oracle environment used by the concrete witnesses. -/
def envOk : Env :=
  ⟨"u1", "2024-01-01T00:00:00+00:00", Option.none, Option.none, Option.none,
    Option.none, Option.none, fun k n => k ++ "?expires=" ++ toString n⟩

/-- An oracle environment whose DynamoDB put_item raises. -/
def envDdbPutFail : Env := { envOk with ddbPutError := some "boom" }

/-- The empty store state. -/
def worldEmpty : World := ⟨[], []⟩

/-- A store state with one metadata record, for the download witness. -/
def w8 : World :=
  ⟨[], [Val.dict [("file_id", Val.str "u1"), ("file_name", Val.str "a.txt")]]⟩

/-- A store state with two timestamped records (older first), for the
listing witness. -/
def w6 : World :=
  ⟨[], [Val.dict [("file_id", Val.str "a"),
          ("upload_timestamp", Val.str "2024-01-01T00:00:00+00:00"),
          ("size", Val.dec (3 : Rat))],
        Val.dict [("file_id", Val.str "b"),
          ("upload_timestamp", Val.str "2024-06-01T00:00:00+00:00")]]⟩

/- ===================== Theorems ===================== -/

theorem convertList_eq_map (xs : List Val) :
    convertList xs = xs.map convert_decimals := by
  induction xs with
  | nil => rfl
  | cons x xs ih => simp [convertList, ih]

theorem convertDict_eq_map (kvs : List (String × Val)) :
    convertDict kvs = kvs.map (fun kv => (kv.1, convert_decimals kv.2)) := by
  induction kvs with
  | nil => rfl
  | cons kv kvs ih => cases kv; simp [convertDict, ih]

mutual

theorem noDecimal_convert : ∀ v : Val, noDecimal (convert_decimals v) = true
  | .none => rfl
  | .bool _ => rfl
  | .int _ => rfl
  | .float _ => rfl
  | .str _ => rfl
  | .bytes _ => rfl
  | .dec q => by
    by_cases h : q.den = 1 <;> simp [convert_decimals, h, noDecimal]
  | .list xs => by
    simpa [convert_decimals, noDecimal] using noDecimal_convertList xs
  | .dict kvs => by
    simpa [convert_decimals, noDecimal] using noDecimal_convertDict kvs

theorem noDecimal_convertList : ∀ xs : List Val, noDecimalList (convertList xs) = true
  | [] => rfl
  | x :: xs => by
    simp [convertList, noDecimalList, noDecimal_convert x, noDecimal_convertList xs]

theorem noDecimal_convertDict :
    ∀ kvs : List (String × Val), noDecimalDict (convertDict kvs) = true
  | [] => rfl
  | (k, v) :: kvs => by
    simp [convertDict, noDecimalDict, noDecimal_convert v, noDecimal_convertDict kvs]

end

/-- C5: the numeric normalizer maps lists elementwise preserving order,
maps dict values preserving keys, converts an integral decimal to an
integer of equal value and any other decimal to a float, leaves every
other value unchanged, and its output contains no decimal-typed value
anywhere. -/
theorem convert_decimals_spec :
    (∀ xs, convert_decimals (Val.list xs) = Val.list (xs.map convert_decimals)) ∧
    (∀ kvs, convert_decimals (Val.dict kvs) =
      Val.dict (kvs.map (fun kv => (kv.1, convert_decimals kv.2)))) ∧
    (∀ q : Rat, q.den = 1 →
      convert_decimals (Val.dec q) = Val.int q.num ∧ (q.num : Rat) = q) ∧
    (∀ q : Rat, q.den ≠ 1 → convert_decimals (Val.dec q) = Val.float q) ∧
    (convert_decimals Val.none = Val.none) ∧
    (∀ b, convert_decimals (Val.bool b) = Val.bool b) ∧
    (∀ n, convert_decimals (Val.int n) = Val.int n) ∧
    (∀ q, convert_decimals (Val.float q) = Val.float q) ∧
    (∀ s, convert_decimals (Val.str s) = Val.str s) ∧
    (∀ bs, convert_decimals (Val.bytes bs) = Val.bytes bs) ∧
    (∀ v, noDecimal (convert_decimals v) = true) := by
  refine ⟨?_, ?_, ?_, ?_, rfl, fun _ => rfl, fun _ => rfl, fun _ => rfl,
    fun _ => rfl, fun _ => rfl, noDecimal_convert⟩
  · intro xs; simp [convert_decimals, convertList_eq_map]
  · intro kvs; simp [convert_decimals, convertDict_eq_map]
  · intro q h
    refine ⟨by simp [convert_decimals, h], ?_⟩
    conv_rhs => rw [← Rat.num_div_den q]
    rw [h]; simp
  · intro q h; simp [convert_decimals, h]

/-- Witness for C5 at concrete inputs: the integral decimal 5 becomes
the integer 5. -/
theorem convert_decimals_spec_witness :
    convert_decimals (Val.dec (5 : Rat)) = Val.int 5 ∧ (5 : Rat).den = 1 := by
  refine ⟨?_, by norm_num⟩
  have h := (convert_decimals_spec.2.2.1 (5 : Rat) (by norm_num)).1
  simpa using h

/-- C3 counterexample: a body that decodes to a JSON array is returned
as that array, not as an empty mapping, so _json_body does not always
return a mapping. -/
theorem json_body_nonmapping_counterexample :
    json_body (Val.dict [("body", Val.str "[1, 2]")]) = Val.list [Val.int 1, Val.int 2] ∧
    isDictV (json_body (Val.dict [("body", Val.str "[1, 2]")])) = false :=
  ⟨rfl, rfl⟩

/-- C3 (amended): _json_body never raises; it returns the decoded JSON
value whenever the body field decodes successfully — whatever the type
of that value — and an empty mapping when the event is not a mapping,
the body is absent or None, or decoding raises. -/
theorem json_body_amended (ev : Val) :
    (isDictV ev = false → json_body ev = Val.dict []) ∧
    (∀ ekvs, ev = Val.dict ekvs →
      (dictGetD ekvs "body" Val.none = Val.none → json_body ev = Val.dict []) ∧
      (∀ b v, dictGetD ekvs "body" Val.none = b → b ≠ Val.none →
        jsonLoads b = Except.ok v → json_body ev = v) ∧
      (∀ b e, dictGetD ekvs "body" Val.none = b →
        jsonLoads b = Except.error e → json_body ev = Val.dict [])) := by
  constructor
  · intro h; cases ev <;> simp_all [json_body, isDictV]
  · rintro ekvs rfl
    have hred : json_body (Val.dict ekvs) =
        (match dictGetD ekvs "body" Val.none with
          | Val.none => Val.dict []
          | b =>
            match jsonLoads b with
            | Except.ok v => v
            | Except.error _ => Val.dict []) := rfl
    refine ⟨fun h => by rw [hred, h], ?_, ?_⟩
    · intro b v hb hne hok
      rw [hred, hb]
      cases b <;> simp_all
    · intro b e hb herr
      rw [hred, hb]
      cases b <;> simp_all

/-- Witness for C3 (amended) at a concrete event: a JSON object body
is decoded and returned. -/
theorem json_body_amended_witness :
    json_body (Val.dict [("body", Val.str "\x7b\"a\": 1\x7d")]) = Val.dict [("a", Val.int 1)] := by
  have hok : jsonLoads (Val.str "\x7b\"a\": 1\x7d") = Except.ok (Val.dict [("a", Val.int 1)]) := rfl
  exact ((json_body_amended (Val.dict [("body", Val.str "\x7b\"a\": 1\x7d")])).2
    [("body", Val.str "\x7b\"a\": 1\x7d")] rfl).2.1
    (Val.str "\x7b\"a\": 1\x7d") (Val.dict [("a", Val.int 1)]) rfl
    (fun heq => Val.noConfusion heq) hok

/-- C4 counterexample: an event record whose requestContext field is a
truthy non-mapping makes _parse_request raise AttributeError, so it
does not return a pair on every inbound event record. -/
theorem parse_request_raises_counterexample :
    parse_request (Val.dict [("requestContext", Val.str "ctx")]) =
      Except.error PyErr.attributeError := rfl

/-- C4 (amended): for every event record whose requestContext field is
absent, falsy, or a mapping, and whose transport fields hold strings
where present, _parse_request returns without raising exactly the
(method, path) pair described by the spec, and both components are
strings (missing fields resolving to the empty string). -/
theorem parse_request_amended (ekvs : List (String × Val))
    (hrc : pyTruthy (dictGetD ekvs "requestContext" Val.none) = false ∨
      ∃ rkvs, dictGetD ekvs "requestContext" Val.none = Val.dict rkvs)
    (hmeth : ∀ rkvs hkvs, dictGetD ekvs "requestContext" Val.none = Val.dict rkvs →
      dictLookup rkvs "http" = some (Val.dict hkvs) →
      ∀ mv, dictLookup hkvs "method" = some mv → ∃ s, mv = Val.str s)
    (hraw : strOrMissing ekvs "rawPath")
    (hhm : strOrMissing ekvs "httpMethod")
    (hp : strOrMissing ekvs "path") :
    parse_request (Val.dict ekvs) = Except.ok (specParseRequest ekvs) ∧
    ∃ m p : String, specParseRequest ekvs = (Val.str m, Val.str p) := by
  have hv1 : ∃ m p : String,
      (dictGetD ekvs "httpMethod" (Val.str ""), dictGetD ekvs "path" (Val.str "")) =
        (Val.str m, Val.str p) := by
    rcases hhm with h | ⟨s, h⟩ <;> rcases hp with h2 | ⟨t, h2⟩
    · exact ⟨"", "", by simp [dictGetD, h, h2]⟩
    · exact ⟨"", t, by simp [dictGetD, h, h2]⟩
    · exact ⟨s, "", by simp [dictGetD, h, h2]⟩
    · exact ⟨s, t, by simp [dictGetD, h, h2]⟩
  have hraw2 : ∃ p : String, dictGetD ekvs "rawPath" (Val.str "") = Val.str p := by
    rcases hraw with h | ⟨s, h⟩
    · exact ⟨"", by simp [dictGetD, h]⟩
    · exact ⟨s, by simp [dictGetD, h]⟩
  have hcode : parse_request (Val.dict ekvs) =
      (match (if pyTruthy (dictGetD ekvs "requestContext" Val.none) then
          dictGetD ekvs "requestContext" Val.none else Val.dict []) with
        | Val.dict rkvs =>
          match dictGetD rkvs "http" Val.none with
          | Val.dict hkvs =>
            if (dictLookup hkvs "method").isSome then
              Except.ok (dictGetD hkvs "method" (Val.str ""),
                dictGetD ekvs "rawPath" (Val.str ""))
            else
              Except.ok (dictGetD ekvs "httpMethod" (Val.str ""),
                dictGetD ekvs "path" (Val.str ""))
          | _ =>
            Except.ok (dictGetD ekvs "httpMethod" (Val.str ""),
              dictGetD ekvs "path" (Val.str ""))
        | _ => Except.error PyErr.attributeError) := rfl
  have hspec : specParseRequest ekvs =
      (match dictGetD ekvs "requestContext" Val.none with
        | Val.dict rkvs =>
          match dictLookup rkvs "http" with
          | some (Val.dict hkvs) =>
            if (dictLookup hkvs "method").isSome then
              (dictGetD hkvs "method" (Val.str ""), dictGetD ekvs "rawPath" (Val.str ""))
            else
              (dictGetD ekvs "httpMethod" (Val.str ""), dictGetD ekvs "path" (Val.str ""))
          | _ => (dictGetD ekvs "httpMethod" (Val.str ""), dictGetD ekvs "path" (Val.str ""))
        | _ => (dictGetD ekvs "httpMethod" (Val.str ""), dictGetD ekvs "path" (Val.str ""))) := rfl
  rw [hcode, hspec]
  cases h0 : dictGetD ekvs "requestContext" Val.none
  case dict rkvs =>
    cases rkvs with
    | nil =>
      constructor
      · simp [pyTruthy, dictGetD, dictLookup]
      · simpa [dictLookup] using hv1
    | cons kv tl =>
      cases h1 : dictLookup (kv :: tl) "http"
      case none =>
        constructor
        · simp [pyTruthy, dictGetD, h1]
        · simpa [h1] using hv1
      case some hv =>
        cases hv
        case dict hkvs =>
          cases h2 : dictLookup hkvs "method"
          case none =>
            constructor
            · simp [pyTruthy, dictGetD, h1, h2]
            · simpa [h1, h2] using hv1
          case some mv =>
            obtain ⟨s, hs⟩ := hmeth (kv :: tl) hkvs h0 h1 mv h2
            obtain ⟨p, hp2⟩ := hraw2
            constructor
            · simp [pyTruthy, dictGetD, h1, h2]
            · refine ⟨s, p, ?_⟩
              simp only [h1, h2, Option.isSome_some, if_true]
              rw [show dictGetD hkvs "method" (Val.str "") = mv by simp [dictGetD, h2],
                hs, hp2]
        all_goals
          constructor
          · simp [pyTruthy, dictGetD, h1]
          · simpa [h1] using hv1
  case none =>
    constructor
    · simp [pyTruthy, dictGetD, dictLookup]
    · exact hv1
  all_goals
    rcases hrc with hfal | ⟨rkvs, hd⟩
    · rw [h0] at hfal
      constructor
      · simp [hfal, dictGetD, dictLookup]
      · simpa using hv1
    · rw [h0] at hd
      cases hd
/-- Witness for C4 (amended) at a concrete v2-schema event. -/
theorem parse_request_amended_witness :
    parse_request (Val.dict [("requestContext",
        Val.dict [("http", Val.dict [("method", Val.str "GET")])]),
      ("rawPath", Val.str "/files")]) =
      Except.ok (Val.str "GET", Val.str "/files") := by
  have h := parse_request_amended
    [("requestContext", Val.dict [("http", Val.dict [("method", Val.str "GET")])]),
      ("rawPath", Val.str "/files")]
    (Or.inr ⟨[("http", Val.dict [("method", Val.str "GET")])], rfl⟩)
    (by
      intro rkvs hkvs hq1 hq2 mv hq3
      simp only [dictGetD, dictLookup] at hq1
      simp only [if_neg, if_pos] at hq1
      injection hq1 with hq1e
      subst hq1e
      simp only [dictLookup, if_pos] at hq2
      injection hq2 with hq2e
      injection hq2e with hq2f
      subst hq2f
      simp only [dictLookup, if_pos] at hq3
      injection hq3 with hq3e
      exact ⟨"GET", hq3e.symm⟩)
    (Or.inr ⟨"/files", rfl⟩) (Or.inl rfl) (Or.inl rfl)
  rw [h.1]
  rfl


/-- C9: an upload whose JSON body is well-formed but carries a numeric
file_content passes the null check, is not coerced to bytes, and then
len() raises TypeError, which propagates uncaught out of lambda_handler
for every oracle environment and store state. -/
theorem upload_non_sized_content_raises (env : Env) (w : World) :
    json_body uploadNumberEvent =
      Val.dict [("file_name", Val.str "a"), ("file_content", Val.int 5)] ∧
    lambda_handler env uploadNumberEvent w = Except.error PyErr.typeError :=
  ⟨rfl, rfl⟩

/-- C10: the router sends GET /files to the list handler, while GET
/files/ (trailing slash) matches the download route and is dispatched
to the download handler with the empty string as the file identifier —
it reaches neither the listing nor the router's 404 fallback. -/
theorem router_files_slash_dispatch (env : Env) (w : World) :
    lambda_handler env filesSlashEvent w =
      (match handle_download env "" w with
        | Except.ok r => Except.ok (r, w)
        | Except.error e => Except.error e) ∧
    lambda_handler env filesEvent w = Except.ok (handle_list env w, w) :=
  ⟨rfl, rfl⟩

/-- C1: an upload whose parsed JSON body has a non-empty file_name and
a file_content whose byte length exceeds the 20 MiB cap yields 413 with
the PayloadTooLarge body and no blob or metadata write (the store state
is returned unchanged); the cap is exclusive: content of exactly
MAX_BYTES passes the size check and never yields 413. -/
theorem upload_size_cap (env : Env) (w : World) (bkvs : List (String × Val))
    (nm : String) (fc : Val)
    (hnm : dictLookup bkvs "file_name" = some (Val.str nm)) (hne : nm ≠ "")
    (hfc : dictLookup bkvs "file_content" = some fc) :
    (∀ n, pyLen (toData fc) = Except.ok n → n > MAX_BYTES →
      handle_upload_body env (Val.dict bkvs) w =
        Except.ok (_resp 413 (errBody "File too large (>20MB)"), w)) ∧
    (pyLen (toData fc) = Except.ok MAX_BYTES →
      ∀ r w', handle_upload_body env (Val.dict bkvs) w = Except.ok (r, w') →
        r.statusCode ≠ 413) := by
  have h1 : dictGetD bkvs "file_name" Val.none = Val.str nm := by
    simp [dictGetD, hnm]
  have h2 : dictGetD bkvs "file_content" Val.none = fc := by
    simp [dictGetD, hfc]
  have htr : pyTruthy (Val.str nm) = true := by simp [pyTruthy, hne]
  constructor
  · intro n hlen hgt
    have hnone : isNoneV fc = false := by
      cases fc <;> simp_all [isNoneV, toData, pyLen]
    simp [handle_upload_body, pyGet, h1, h2, htr, hnone, hlen, hgt]
  · intro hlen r w' hr
    have hnone : isNoneV fc = false := by
      cases fc <;> simp_all [isNoneV, toData, pyLen]
    have hngt : ¬ (MAX_BYTES > MAX_BYTES) := by omega
    simp only [handle_upload_body, pyGet, h1, h2, htr, hnone, hlen,
      Bool.not_true, Bool.false_or, Bool.false_eq_true, if_false, if_neg hngt] at hr
    cases hs3 : env.s3PutError with
    | some e =>
      rw [hs3] at hr
      simp only [Except.ok.injEq, Prod.mk.injEq] at hr
      rw [← hr.1]
      simp [_resp]
    | none =>
      rw [hs3] at hr
      cases hddb : env.ddbPutError with
      | some e =>
        rw [hddb] at hr
        simp only [Except.ok.injEq, Prod.mk.injEq] at hr
        rw [← hr.1]
        simp [_resp]
      | none =>
        rw [hddb] at hr
        simp only [Except.ok.injEq, Prod.mk.injEq] at hr
        rw [← hr.1]
        simp [_resp]

/-- Witness for C1: a content of MAX_BYTES + 1 bytes is rejected with
413 and the stores are untouched. -/
theorem upload_size_cap_witness :
    handle_upload_body envOk (Val.dict [("file_name", Val.str "big.bin"),
        ("file_content", Val.bytes (List.replicate (MAX_BYTES + 1) 0))]) worldEmpty =
      Except.ok (_resp 413 (errBody "File too large (>20MB)"), worldEmpty) := by
  refine (upload_size_cap envOk worldEmpty
    [("file_name", Val.str "big.bin"),
      ("file_content", Val.bytes (List.replicate (MAX_BYTES + 1) 0))] "big.bin"
    (Val.bytes (List.replicate (MAX_BYTES + 1) 0)) rfl (by decide) rfl).1
    (MAX_BYTES + 1) ?_ (by omega)
  simp [toData, pyLen]

/-- C2: an upload whose parsed JSON body lacks file_name (or has it
empty) or whose file_content is absent/null yields 400 with the
ValidationError body and no writes; an empty-string file_content is
accepted as valid content and never yields 400. -/
theorem upload_validation (env : Env) (w : World) (bkvs : List (String × Val)) :
    ((dictLookup bkvs "file_name" = Option.none ∨
      dictLookup bkvs "file_name" = some (Val.str "") ∨
      dictLookup bkvs "file_content" = Option.none ∨
      dictLookup bkvs "file_content" = some Val.none) →
      handle_upload_body env (Val.dict bkvs) w =
        Except.ok (_resp 400 (errBody "Provide file_name and file_content"), w)) ∧
    (∀ nm, nm ≠ "" → dictLookup bkvs "file_name" = some (Val.str nm) →
      dictLookup bkvs "file_content" = some (Val.str "") →
      ∀ r w', handle_upload_body env (Val.dict bkvs) w = Except.ok (r, w') →
        r.statusCode ≠ 400) := by
  constructor
  · intro hbad
    rcases hbad with h | h | h | h
    · simp [handle_upload_body, pyGet, dictGetD, h, pyTruthy]
    · simp [handle_upload_body, pyGet, dictGetD, h, pyTruthy]
    · simp [handle_upload_body, pyGet, dictGetD, h, isNoneV]
    · simp [handle_upload_body, pyGet, dictGetD, h, isNoneV]
  · intro nm hne hnm hfc r w' hr
    have h1 : dictGetD bkvs "file_name" Val.none = Val.str nm := by
      simp [dictGetD, hnm]
    have h2 : dictGetD bkvs "file_content" Val.none = Val.str "" := by
      simp [dictGetD, hfc]
    have htr : pyTruthy (Val.str nm) = true := by simp [pyTruthy, hne]
    have hlen : pyLen (toData (Val.str "")) = Except.ok 0 := rfl
    have hngt : ¬ ((0 : Nat) > MAX_BYTES) := by omega
    simp only [handle_upload_body, pyGet, h1, h2, htr, hlen, isNoneV,
      Bool.not_true, Bool.false_or, Bool.false_eq_true, if_false, if_neg hngt] at hr
    cases hs3 : env.s3PutError with
    | some e =>
      rw [hs3] at hr
      simp only [Except.ok.injEq, Prod.mk.injEq] at hr
      rw [← hr.1]
      simp [_resp]
    | none =>
      rw [hs3] at hr
      cases hddb : env.ddbPutError with
      | some e =>
        rw [hddb] at hr
        simp only [Except.ok.injEq, Prod.mk.injEq] at hr
        rw [← hr.1]
        simp [_resp]
      | none =>
        rw [hddb] at hr
        simp only [Except.ok.injEq, Prod.mk.injEq] at hr
        rw [← hr.1]
        simp [_resp]

/-- Witness for C2: a body with both fields missing is rejected with
400 and the stores are untouched. -/
theorem upload_validation_witness :
    handle_upload_body envOk (Val.dict []) worldEmpty =
      Except.ok (_resp 400 (errBody "Provide file_name and file_content"), worldEmpty) :=
  (upload_validation envOk worldEmpty []).1 (Or.inl rfl)

theorem s3Lookup_putObj (objs : List (String × S3Obj)) (key : String) (o : S3Obj) :
    s3Lookup (putObj objs key o) key = some o := by
  induction objs with
  | nil => simp [putObj, s3Lookup]
  | cons kv rest ih =>
    obtain ⟨k, v⟩ := kv
    by_cases h : k = key
    · simp [putObj, h, s3Lookup]
    · simp [putObj, h, s3Lookup, ih]

/-- C7: when the blob write succeeds and the metadata write then fails,
the upload returns 500 with the MetadataWriteError body, the blob
remains in the store under the key uuid_filename with the uploaded
bytes, and no metadata record exists for the new file id (the table is
unchanged): the blob is orphaned, not rolled back. -/
theorem upload_orphan_blob (env : Env) (w : World) (bkvs : List (String × Val))
    (nm : String) (fc : Val) (n : Nat) (d : String)
    (hnm : dictLookup bkvs "file_name" = some (Val.str nm)) (hne : nm ≠ "")
    (hfc : dictLookup bkvs "file_content" = some fc)
    (hlen : pyLen (toData fc) = Except.ok n) (hsz : n ≤ MAX_BYTES)
    (hs3 : env.s3PutError = Option.none) (hddb : env.ddbPutError = some d)
    (hfresh : lookupItem w.table env.uuid = Option.none) :
    ∃ w', handle_upload_body env (Val.dict bkvs) w =
        Except.ok (_resp 500 (errBody ("DynamoDB write failed: " ++ d)), w') ∧
      (∃ obj, s3Lookup w'.s3 (env.uuid ++ "_" ++ nm) = some obj ∧
        obj.body = toData fc) ∧
      w'.table = w.table ∧
      lookupItem w'.table env.uuid = Option.none := by
  have h1 : dictGetD bkvs "file_name" Val.none = Val.str nm := by
    simp [dictGetD, hnm]
  have h2 : dictGetD bkvs "file_content" Val.none = fc := by
    simp [dictGetD, hfc]
  have htr : pyTruthy (Val.str nm) = true := by simp [pyTruthy, hne]
  have hnone : isNoneV fc = false := by
    cases fc <;> simp_all [isNoneV, toData, pyLen]
  have hngt : ¬ (n > MAX_BYTES) := by omega
  refine ⟨World.mk (putObj w.s3 (env.uuid ++ "_" ++ nm)
      (S3Obj.mk (toData fc)
        (if pyTruthy (dictGetD bkvs "content_type" Val.none) then
          dictGetD bkvs "content_type" Val.none else Val.str "text/plain")
        [("file-id", Val.str env.uuid), ("original-name", Val.str nm)]))
      w.table, ?_, ?_, rfl, hfresh⟩
  · simp [handle_upload_body, pyGet, h1, h2, htr, hnone, hlen, hngt, hs3, hddb, pyStr]
  · exact ⟨_, s3Lookup_putObj _ _ _, rfl⟩

/-- Witness for C7: uploading "hi" with a failing metadata write leaves
the blob under u1_a.txt and no record for u1. -/
theorem upload_orphan_blob_witness :
    ∃ w', handle_upload_body envDdbPutFail
        (Val.dict [("file_name", Val.str "a.txt"), ("file_content", Val.str "hi")])
        worldEmpty =
        Except.ok (_resp 500 (errBody ("DynamoDB write failed: " ++ "boom")), w') ∧
      (∃ obj, s3Lookup w'.s3 ("u1" ++ "_" ++ "a.txt") = some obj ∧
        obj.body = toData (Val.str "hi")) ∧
      w'.table = worldEmpty.table ∧
      lookupItem w'.table "u1" = Option.none := by
  exact upload_orphan_blob envDdbPutFail worldEmpty
    [("file_name", Val.str "a.txt"), ("file_content", Val.str "hi")]
    "a.txt" (Val.str "hi") 2 "boom" rfl (by decide) rfl rfl (by decide) rfl rfl rfl

theorem convertDict_lookup (kvs : List (String × Val)) (k : String) :
    dictLookup (convertDict kvs) k = (dictLookup kvs k).map convert_decimals := by
  induction kvs with
  | nil => simp [convertDict, dictLookup]
  | cons kv rest ih =>
    obtain ⟨k2, v⟩ := kv
    by_cases h : k2 = k
    · simp [convertDict, dictLookup, h]
    · simp [convertDict, dictLookup, h, ih]

/-- C8: downloading a file id with no metadata record yields 404 with
the NotFound body; with a record, a pre-signed URL for the derived key
file_id_file_name with ExpiresIn 3600 is requested and the 200 body
carries file_id, file_name and download_url. -/
theorem download_spec (env : Env) (w : World) (fid : String)
    (hget : env.ddbGetError = Option.none) :
    (lookupItem w.table fid = Option.none →
      handle_download env fid w = Except.ok (_resp 404 (errBody "File not found"))) ∧
    (∀ kvs nm, lookupItem w.table fid = some (Val.dict kvs) → kvs ≠ [] →
      dictLookup kvs "file_name" = some (Val.str nm) →
      env.presignError = Option.none →
      handle_download env fid w = Except.ok (_resp 200 (Val.dict
        [("file_id", Val.str fid), ("file_name", Val.str nm),
          ("download_url", Val.str (env.presignUrl (fid ++ "_" ++ nm) 3600))]))) := by
  constructor
  · intro habs
    simp [handle_download, hget, habs]
  · intro kvs nm hit hnem hname hps
    have htr : pyTruthy (Val.dict kvs) = true := by
      simp [pyTruthy, hnem]
    have hidx : pyIndex (convert_decimals (Val.dict kvs)) "file_name" =
        Except.ok (Val.str nm) := by
      have hcd : convert_decimals (Val.dict kvs) = Val.dict (convertDict kvs) := by
        simp [convert_decimals]
      rw [hcd]
      simp [pyIndex, convertDict_lookup, hname, convert_decimals]
    simp [handle_download, hget, hit, htr, hidx, hps, pyStr]

/-- Witness for C8: downloading u1 from a store holding its record
yields the pre-signed URL for key u1_a.txt. -/
theorem download_spec_witness :
    handle_download envOk "u1" w8 = Except.ok (_resp 200 (Val.dict
      [("file_id", Val.str "u1"), ("file_name", Val.str "a.txt"),
        ("download_url", Val.str (envOk.presignUrl ("u1" ++ "_" ++ "a.txt") 3600))])) := by
  exact (download_spec envOk w8 "u1" rfl).2
    [("file_id", Val.str "u1"), ("file_name", Val.str "a.txt")] "a.txt"
    rfl (by simp) rfl rfl

theorem insertDesc_perm (p : String × Val) (l : List (String × Val)) :
    List.Perm (insertDesc p l) (p :: l) := by
  induction l with
  | nil => simp [insertDesc]
  | cons q tl ih =>
    by_cases h : q.1 ≤ p.1
    · simp [insertDesc, h]
    · simp only [insertDesc, if_neg h]
      exact (List.Perm.cons q ih).trans (List.Perm.swap p q tl)

theorem sortDescBy_perm (l : List (String × Val)) : List.Perm (sortDescBy l) l := by
  induction l with
  | nil => simp [sortDescBy]
  | cons p tl ih =>
    exact (insertDesc_perm p (sortDescBy tl)).trans (List.Perm.cons p ih)

theorem insertDesc_sorted (p : String × Val) (l : List (String × Val))
    (h : List.Pairwise (fun a b => b.1 ≤ a.1) l) :
    List.Pairwise (fun a b => b.1 ≤ a.1) (insertDesc p l) := by
  induction l with
  | nil => simp [insertDesc]
  | cons q tl ih =>
    by_cases hq : q.1 ≤ p.1
    · simp only [insertDesc, if_pos hq]
      refine List.Pairwise.cons ?_ h
      intro x hx
      rcases List.mem_cons.mp hx with rfl | hx2
      · exact hq
      · exact le_trans (List.rel_of_pairwise_cons h hx2) hq
    · simp only [insertDesc, if_neg hq]
      refine List.Pairwise.cons ?_ (ih h.of_cons)
      intro x hx
      have hx3 := (insertDesc_perm p tl).mem_iff.mp hx
      rcases List.mem_cons.mp hx3 with rfl | hx4
      · exact le_of_not_le hq
      · exact List.rel_of_pairwise_cons h hx4

theorem sortDescBy_sorted (l : List (String × Val)) :
    List.Pairwise (fun a b => b.1 ≤ a.1) (sortDescBy l) := by
  induction l with
  | nil => simp [sortDescBy]
  | cons p tl ih => exact insertDesc_sorted p (sortDescBy tl) ih

theorem keyedOf_of_forall (items : List Val)
    (h : ∀ it ∈ items, keyOf it = Except.ok (tsKey it)) :
    keyedOf items = Except.ok (items.map (fun it => (tsKey it, it))) := by
  induction items with
  | nil => simp [keyedOf]
  | cons v vs ih =>
    have hv := h v (List.mem_cons_self v vs)
    have hrest := ih (fun it hit => h it (List.mem_cons_of_mem v hit))
    simp [keyedOf, hv, hrest]

/-- C6: with a healthy scan whose records are dicts carrying a string
(or absent) upload_timestamp, the list handler returns 200 with the
converted records sorted in descending lexicographic order of their
timestamp (a record without the field sorting with key ""); an empty
scan yields 200 with an empty sequence. -/
theorem list_sorted_desc (env : Env) (w : World)
    (hscan : env.ddbScanError = Option.none)
    (hitems : ∀ it ∈ w.table, ∃ kvs, it = Val.dict kvs ∧
      (dictLookup kvs "upload_timestamp" = Option.none ∨
        ∃ s, dictLookup kvs "upload_timestamp" = some (Val.str s))) :
    ∃ out, handle_list env w = _resp 200 (Val.list out) ∧
      List.Perm out (convertList w.table) ∧
      List.Pairwise (fun a b => tsKey b ≤ tsKey a) out ∧
      (w.table = [] → out = []) := by
  have hok : ∀ it ∈ convertList w.table, keyOf it = Except.ok (tsKey it) := by
    intro it hit
    rw [convertList_eq_map] at hit
    obtain ⟨it0, hit0, rfl⟩ := List.mem_map.mp hit
    obtain ⟨kvs, rfl, hts⟩ := hitems it0 hit0
    have hcd : convert_decimals (Val.dict kvs) = Val.dict (convertDict kvs) := by
      simp [convert_decimals]
    rcases hts with hnone | ⟨s, hs⟩
    · rw [hcd]
      simp [keyOf, tsKey, convertDict_lookup, hnone]
    · rw [hcd]
      simp [keyOf, tsKey, convertDict_lookup, hs, convert_decimals]
  have hkeyed := keyedOf_of_forall (convertList w.table) hok
  refine ⟨(sortDescBy ((convertList w.table).map (fun it => (tsKey it, it)))).map
    (fun p => p.2), ?_, ?_, ?_, ?_⟩
  · simp [handle_list, hscan, pySortDesc, hkeyed]
  · have h2 := (sortDescBy_perm ((convertList w.table).map
      (fun it => (tsKey it, it)))).map (fun p => p.2)
    have h3 : ((convertList w.table).map (fun it => (tsKey it, it))).map
        (fun p => p.2) = convertList w.table := by
      rw [List.map_map]
      exact List.map_id' (convertList w.table)
    rw [h3] at h2
    exact h2
  · have hsorted := sortDescBy_sorted ((convertList w.table).map
      (fun it => (tsKey it, it)))
    have hinv : ∀ p ∈ sortDescBy ((convertList w.table).map
        (fun it => (tsKey it, it))), p.1 = tsKey p.2 := by
      intro p hp
      have hmem := (sortDescBy_perm _).mem_iff.mp hp
      obtain ⟨it, _, rfl⟩ := List.mem_map.mp hmem
      rfl
    rw [List.pairwise_map]
    refine hsorted.imp_of_mem ?_
    intro a b ha hb hr
    rw [← hinv a ha, ← hinv b hb]
    exact hr
  · intro htab
    simp [htab, convertList, sortDescBy]

/-- Witness for C6: a two-record table (older first) is returned sorted
newest first. -/
theorem list_sorted_desc_witness :
    ∃ out, handle_list envOk w6 = _resp 200 (Val.list out) ∧
      List.Perm out (convertList w6.table) ∧
      List.Pairwise (fun a b => tsKey b ≤ tsKey a) out ∧
      (w6.table = [] → out = []) := by
  refine list_sorted_desc envOk w6 rfl ?_
  intro it hit
  simp only [w6, List.mem_cons, List.not_mem_nil, or_false] at hit
  rcases hit with rfl | rfl
  · exact ⟨_, rfl, Or.inr ⟨"2024-01-01T00:00:00+00:00", rfl⟩⟩
  · exact ⟨_, rfl, Or.inr ⟨"2024-06-01T00:00:00+00:00", rfl⟩⟩
